import Mathlib

/-
A verification development for the libposix C++ library (namespace posixcc):
shallow embeddings of auto_fd, auto_pipe, worker_process and the module-symbol
loader, with the OS (descriptor table, child table, dynamic linker) modelled
explicitly so that copy/move/close/reap behaviour can be stated and proved.
-/

set_option maxHeartbeats 1000000

/-- The OS descriptor table: the list of currently-open file descriptors.
Descriptor values are integers; valid descriptors are nonnegative. -/
structure OS where
  fds : List Int
deriving DecidableEq

/-- A descriptor is open when it is nonnegative and present in the table. -/
def OS.IsOpen (os : OS) (i : Int) : Prop := 0 ≤ i ∧ i ∈ os.fds

instance (os : OS) (i : Int) : Decidable (os.IsOpen i) := by
  unfold OS.IsOpen; infer_instance

/-- A descriptor value not yet in the table (one past the maximum).  POSIX dup
picks the lowest unused descriptor; the claims only depend on the new
descriptor being fresh, not on the numbering policy. -/
def OS.fresh (os : OS) : Int := os.fds.foldr max 0 + 1

/-- POSIX dup(i): allocate a fresh descriptor for an open i, or fail with -1
(EBADF) when i is not an open descriptor. -/
def OS.dup (os : OS) (i : Int) : Int × OS :=
  if os.IsOpen i then (os.fresh, ⟨os.fresh :: os.fds⟩) else (-1, os)

/-- POSIX close(i): remove an open descriptor from the table; closing an
invalid descriptor fails and changes nothing. -/
def OS.close (os : OS) (i : Int) : OS :=
  if os.IsOpen i then ⟨os.fds.filter (fun x => x != i)⟩ else os

/-- Embedding of posixcc::auto_fd: a single integer descriptor slot,
-1 meaning empty (src/auto_fd.cc). -/
structure auto_fd where
  fd : Int
deriving DecidableEq

/-- auto_fd::operator bool — true iff the slot is not -1. -/
def auto_fd.toBool (a : auto_fd) : Bool := a.fd != -1

/-- auto_fd::get — returns the raw descriptor value. -/
def auto_fd.get (a : auto_fd) : Int := a.fd

/-- auto_fd::close — `if (-1 != fd) { ::close(fd); fd = -1; }`. -/
def auto_fd.close (a : auto_fd) (os : OS) : auto_fd × OS :=
  if a.fd != -1 then (⟨-1⟩, os.close a.fd) else (a, os)

/-- auto_fd::set — `close(); fd = i; return i;`.  The function is noexcept and
raises no error, hence the total return type. -/
def auto_fd.set (a : auto_fd) (i : Int) (os : OS) : Int × auto_fd × OS :=
  let c := a.close os
  (i, ⟨i⟩, c.2)

/-- auto_fd::release — `int i = fd; fd = -1; return i;`.  The body performs no
system call, so the descriptor table is returned unchanged. -/
def auto_fd.release (a : auto_fd) (os : OS) : Int × auto_fd × OS :=
  (a.fd, ⟨-1⟩, os)

/-- auto_fd copy constructor — `fd{dup(i)}` (src/auto_fd.cc line 16).  A dup
failure leaves -1 in the slot; no error is raised (noexcept). -/
def auto_fd.copyCtor (src : auto_fd) (os : OS) : auto_fd × OS :=
  let d := os.dup src.fd
  (⟨d.1⟩, d.2)

/-- auto_fd copy assignment — `set(dup(i))` (src/auto_fd.cc line 39): dup
first, then set (which closes the previous descriptor). -/
def auto_fd.copyAssign (dst src : auto_fd) (os : OS) : auto_fd × OS :=
  let d := os.dup src.fd
  let s := dst.set d.1 d.2
  (s.2.1, s.2.2)

/-- Embedding of posixcc::auto_pipe: two auto_fd members, read end and
write end (src/auto_pipe.cc). -/
structure auto_pipe where
  read_fd : auto_fd
  write_fd : auto_fd
deriving DecidableEq

/-- auto_pipe::operator bool — true iff either end is non-empty. -/
def auto_pipe.toBool (p : auto_pipe) : Bool := p.read_fd.toBool || p.write_fd.toBool

/-- auto_pipe copy constructor (src/auto_pipe.cc line 25): members are
default-initialised to empty, then the body assigns each end with the auto_fd
copy assignment (`read_fd = p.read_fd; write_fd = p.write_fd;`). -/
def auto_pipe.copyCtor (p : auto_pipe) (os : OS) : auto_pipe × OS :=
  let r := auto_fd.copyAssign ⟨-1⟩ p.read_fd os
  let w := auto_fd.copyAssign ⟨-1⟩ p.write_fd r.2
  (⟨r.1, w.1⟩, w.2)

/-- auto_pipe copy assignment, declared `= default` (src/include/libposix.hh
line 97): memberwise auto_fd copy assignment of read_fd then write_fd. -/
def auto_pipe.copyAssignDefaulted (dst p : auto_pipe) (os : OS) : auto_pipe × OS :=
  let r := auto_fd.copyAssign dst.read_fd p.read_fd os
  let w := auto_fd.copyAssign dst.write_fd p.write_fd r.2
  (⟨r.1, w.1⟩, w.2)

/-- auto_pipe::close — `close_rfd(); close_wfd();`, each closing one end via
auto_fd::close (src/auto_pipe.cc line 81). -/
def auto_pipe.close (p : auto_pipe) (os : OS) : auto_pipe × OS :=
  let r := p.read_fd.close os
  let w := p.write_fd.close r.2
  (⟨r.1, w.1⟩, w.2)

/-- Embedding of posixcc::worker_process: one PID slot, -1 meaning empty
(src/process.cc). -/
structure worker_process where
  child_pid : Int
deriving DecidableEq

/-- worker_process::release — `child_pid = -1;`. -/
def worker_process.release (_s : worker_process) : worker_process := ⟨-1⟩

/-- worker_process::get_id — `child_pid > 0 ? child_pid : 0`. -/
def worker_process.get_id (s : worker_process) : Int :=
  if 0 < s.child_pid then s.child_pid else 0

/-- worker_process::is_running (src/process.cc line 68): returns false for an
empty slot; otherwise polls `waitpid(child_pid, nullptr, WNOHANG)` — the
oracle w gives that call's return value — clearing the slot and returning
false only when the poll returns the owned PID, else returning true with the
slot unchanged. -/
def worker_process.is_running (s : worker_process) (w : Int → Int) :
    Bool × worker_process :=
  if s.child_pid = -1 then (false, s)
  else if w s.child_pid = s.child_pid then (false, ⟨-1⟩)
  else (true, s)

/-- A system call issued by a worker_process operation, for frame reasoning:
a waitpid poll or a signal sent with kill. -/
inductive Syscall where
  | wait (pid : Int)
  | signal (pid : Int) (sig : Int)
deriving DecidableEq

/-- The kernel's view of which child PIDs are currently running. -/
structure KernelState where
  running : List Int
deriving DecidableEq

/-- Effect of one system call on the kernel: waiting does not change the
running set; a signal (SIGTERM and the like) terminates its target. -/
def KernelState.applySyscall (k : KernelState) : Syscall → KernelState
  | Syscall.wait _ => k
  | Syscall.signal p _ => ⟨k.running.erase p⟩

/-- Effect of a trace of system calls on the kernel, in order. -/
def KernelState.applyTrace (k : KernelState) (t : List Syscall) : KernelState :=
  t.foldl KernelState.applySyscall k

/-- worker_process move constructor (src/process.cc line 47):
`child_pid{p.child_pid}` then `p.release()`.  The body issues no system call,
hence the empty trace. -/
def worker_process.moveCtor (src : worker_process) :
    worker_process × worker_process × List Syscall :=
  (⟨src.child_pid⟩, worker_process.release src, [])

/-- worker_process move assignment (src/process.cc line 60):
`child_pid = p.child_pid; p.release();`.  The previous PID of the target is
overwritten; no system call is issued, hence the empty trace. -/
def worker_process.moveAssign (_dst src : worker_process) :
    worker_process × worker_process × List Syscall :=
  (⟨src.child_pid⟩, worker_process.release src, [])

/-- Outcome of a call to worker_process::join: a normal return with the final
handle state, a raised errno (no branch of the source produces one: the body
has no throw), or still running when the poll budget is exhausted. -/
inductive JoinOutcome where
  | returned (s : worker_process)
  | raised (errno : Int)
  | running
deriving DecidableEq

/-- worker_process::join (src/process.cc line 110): loop
`while (is_running()) sleep(...)`.  w gives the waitpid oracle for each poll,
fuel bounds the number of polls (the sleeps only pace the loop). -/
def worker_process.join (w : Nat → Int → Int) :
    Nat → worker_process → JoinOutcome
  | 0, _ => JoinOutcome.running
  | n + 1, s =>
    let r := worker_process.is_running s (w n)
    if r.1 then worker_process.join w n r.2 else JoinOutcome.returned r.2

/-- A child process as the kernel sees it for wait purposes: its PID, its
process group ID, and whether it has terminated but is not yet reaped. -/
structure Child where
  pid : Int
  pgid : Int
  zombie : Bool
deriving DecidableEq

/-- Terminated, unreaped child in process group pg. -/
def groupZombie (pg : Int) (c : Child) : Bool := c.pgid == pg && c.zombie

/-- Select the first terminated child in process group pg, returning its PID
and the table with it reaped (removed); none when no such child exists. -/
def selectZombie (pg : Int) : List Child → Option (Int × List Child)
  | [] => none
  | c :: cs =>
    if groupZombie pg c then some (c.pid, cs)
    else
      match selectZombie pg cs with
      | some r => some (r.1, c :: r.2)
      | none => none

/-- waitpid(0, nullptr, WNOHANG), modelled from POSIX: pid 0 selects children
whose process group ID equals the caller's (pg).  Returns the reaped PID when
a terminated child of the group exists, 0 when the group has children but
none has terminated, and -1 (ECHILD) when the group has no children.  WNOHANG
means the call returns immediately in every case. -/
def waitpidGroupNohang (pg : Int) (cs : List Child) : Int × List Child :=
  match selectZombie pg cs with
  | some r => r
  | none => (if cs.any (fun c => c.pgid == pg) then 0 else -1, cs)

/-- The loop body of worker_process::reap_all with an explicit poll budget:
`while (waitpid(0, nullptr, WNOHANG) > 0) {}`. -/
def reapAllAux (pg : Int) : Nat → List Child → List Child
  | 0, cs => cs
  | n + 1, cs =>
    let r := waitpidGroupNohang pg cs
    if 0 < r.1 then reapAllAux pg n r.2 else cs

/-- worker_process::reap_all (src/process.cc line 35): the caller's process
group is pg, cs is the kernel child table.  A budget of cs.length polls is
enough, since every successful poll reaps one child. -/
def worker_process.reap_all (pg : Int) (cs : List Child) : List Child :=
  reapAllAux pg cs.length cs

/-- Mode argument of dlopen: RTLD_NOW (immediate symbol resolution) or
RTLD_LAZY. -/
inductive DlMode where
  | now
  | lazy
deriving DecidableEq

/-- Oracle for the dynamic linker: results of dlopen (a library handle) and
dlsym (a symbol address). -/
structure DlEnv where
  dlopenRes : DlMode → String → Option Nat
  dlsymRes : Nat → String → Option Nat

/-- The set of currently loaded library handles. -/
structure LibState where
  openLibs : List Nat
deriving DecidableEq

/-- Embedding of posixcc::modsymbol: a library handle and a symbol pointer,
either possibly null (src/include/libposix.hh). -/
structure modsymbol where
  handle : Option Nat
  ptr : Option Nat
deriving DecidableEq

/-- posixcc::load_modsymbol (src/module.cc line 34): dlopen(from, RTLD_NOW);
on failure throw runtime_error("dlopen failed on " + from); then dlsym; on
failure dlclose the freshly opened handle and throw
runtime_error("dlsym failed to find " + sym + " in " + from); on success
return modsymbol{h, p}.  Message strings are built exactly as the source
builds them with append. -/
def load_modsymbol (env : DlEnv) (sym path : String) (st : LibState) :
    Except String modsymbol × LibState :=
  match env.dlopenRes DlMode.now path with
  | none => (Except.error ("dlopen failed on " ++ path), st)
  | some h =>
    match env.dlsymRes h sym with
    | none => (Except.error ("dlsym failed to find " ++ sym ++ " in " ++ path),
               ⟨(h :: st.openLibs).erase h⟩)
    | some p => (Except.ok ⟨some h, some p⟩, ⟨h :: st.openLibs⟩)

/-! Helper lemmas about the descriptor table. -/

theorem mem_le_foldr_max (l : List Int) (x : Int) (hx : x ∈ l) :
    x ≤ l.foldr max 0 := by
  induction l with
  | nil => cases hx
  | cons a t ih =>
    rcases List.mem_cons.mp hx with h | h
    · subst h; exact le_max_left _ _
    · exact le_trans (ih h) (le_max_right _ _)

theorem foldr_max_nonneg (l : List Int) : 0 ≤ l.foldr max 0 := by
  induction l with
  | nil => simp
  | cons a t ih => exact le_trans ih (le_max_right _ _)

theorem OS.fresh_pos (os : OS) : 0 < os.fresh := by
  have := foldr_max_nonneg os.fds
  unfold OS.fresh
  omega

theorem OS.lt_fresh_of_mem (os : OS) (x : Int) (hx : x ∈ os.fds) : x < os.fresh := by
  have := mem_le_foldr_max os.fds x hx
  unfold OS.fresh
  omega

theorem OS.fresh_not_mem (os : OS) : os.fresh ∉ os.fds := by
  intro h
  have := OS.lt_fresh_of_mem os _ h
  omega

theorem OS.mem_close_of_ne (os : OS) (x i : Int) (hx : x ∈ os.fds) (hne : x ≠ i) :
    x ∈ (os.close i).fds := by
  unfold OS.close
  split
  · simpa [List.mem_filter, bne_iff_ne] using ⟨hx, hne⟩
  · exact hx

/-- One dup-based auto_fd copy-assignment step, for an open source descriptor
and a target slot below the fresh descriptor (an empty or previously open
slot always is): the result holds the fresh descriptor, that descriptor is
open afterwards, every other open descriptor except the target's old one
stays open, and the fresh bound strictly grows. -/
theorem copyAssign_step (dst src : auto_fd) (os : OS)
    (hs : os.IsOpen src.fd) (hdlt : dst.fd < os.fresh) :
    (auto_fd.copyAssign dst src os).1.fd = os.fresh ∧
    (auto_fd.copyAssign dst src os).2.IsOpen os.fresh ∧
    (∀ x, os.IsOpen x → x ≠ dst.fd → (auto_fd.copyAssign dst src os).2.IsOpen x) ∧
    os.fresh < (auto_fd.copyAssign dst src os).2.fresh := by
  have hfr : 0 < os.fresh := OS.fresh_pos os
  have hca : auto_fd.copyAssign dst src os =
      (⟨os.fresh⟩, (dst.close ⟨os.fresh :: os.fds⟩).2) := by
    simp [auto_fd.copyAssign, auto_fd.set, OS.dup, hs]
  have hmem : ∀ x, x ∈ (⟨os.fresh :: os.fds⟩ : OS).fds → x ≠ dst.fd →
      x ∈ (dst.close ⟨os.fresh :: os.fds⟩).2.fds := by
    intro x hx hne
    unfold auto_fd.close
    split
    · exact OS.mem_close_of_ne _ x dst.fd hx hne
    · exact hx
  have hfo : (dst.close ⟨os.fresh :: os.fds⟩).2.IsOpen os.fresh := by
    refine ⟨le_of_lt hfr, hmem os.fresh (List.mem_cons_self _ _) ?_⟩
    omega
  refine ⟨by rw [hca], by rw [hca]; exact hfo, ?_, ?_⟩
  · intro x hxo hne
    rw [hca]
    exact ⟨hxo.1, hmem x (List.mem_cons_of_mem _ hxo.2) hne⟩
  · rw [hca]
    exact OS.lt_fresh_of_mem _ os.fresh hfo.2

/-- C4: auto_fd copy construction and copy assignment allocate a new
descriptor via dup of the source's descriptor; an empty source gives an empty
copy; a dup failure gives an empty handle.  Both operations are noexcept in
the source and have no error branch, so no error can be raised. -/
theorem fd_copy_dup_spec (src dst : auto_fd) (os : OS)
    (hd : dst.fd = -1 ∨ os.IsOpen dst.fd) :
    (src.fd = -1 →
      (auto_fd.copyCtor src os).1.fd = -1 ∧ (auto_fd.copyAssign dst src os).1.fd = -1) ∧
    (¬ os.IsOpen src.fd →
      (auto_fd.copyCtor src os).1.fd = -1 ∧ (auto_fd.copyAssign dst src os).1.fd = -1) ∧
    (os.IsOpen src.fd →
      (auto_fd.copyCtor src os).1.fd = os.fresh ∧
      (auto_fd.copyCtor src os).1.fd ∉ os.fds ∧
      (auto_fd.copyCtor src os).1.fd ≠ src.fd ∧
      (auto_fd.copyCtor src os).2.IsOpen (auto_fd.copyCtor src os).1.fd ∧
      (auto_fd.copyAssign dst src os).1.fd = os.fresh ∧
      (auto_fd.copyAssign dst src os).2.IsOpen (auto_fd.copyAssign dst src os).1.fd) := by
  by_cases hs : os.IsOpen src.fd
  · have hdlt : dst.fd < os.fresh := by
      rcases hd with h | h
      · have := OS.fresh_pos os
        omega
      · exact OS.lt_fresh_of_mem os dst.fd h.2
    obtain ⟨h1, h2, _h3, _h4⟩ := copyAssign_step dst src os hs hdlt
    refine ⟨?_, fun hns => absurd hs hns, fun _ => ?_⟩
    · intro h0
      exact absurd hs (by simp [OS.IsOpen, h0])
    · have hctor : auto_fd.copyCtor src os = (⟨os.fresh⟩, ⟨os.fresh :: os.fds⟩) := by
        simp [auto_fd.copyCtor, OS.dup, hs]
      have hne : os.fresh ≠ src.fd := fun h => OS.fresh_not_mem os (h ▸ hs.2)
      refine ⟨by rw [hctor], by rw [hctor]; exact OS.fresh_not_mem os, by rw [hctor]; exact hne,
        ?_, by rw [h1], by rw [h1]; exact h2⟩
      rw [hctor]
      exact ⟨le_of_lt (OS.fresh_pos os), List.mem_cons_self _ _⟩
  · have hctor : auto_fd.copyCtor src os = (⟨-1⟩, os) := by
      simp [auto_fd.copyCtor, OS.dup, hs]
    have hassign : (auto_fd.copyAssign dst src os).1.fd = -1 := by
      simp [auto_fd.copyAssign, auto_fd.set, OS.dup, hs]
    exact ⟨fun _ => ⟨by rw [hctor], hassign⟩, fun _ => ⟨by rw [hctor], hassign⟩,
      fun h => absurd h hs⟩

/-- C4 witness: the specification applied to the open source descriptor 2 and
an empty target on the table [0, 1, 2]. -/
theorem fd_copy_dup_spec_w :
    ((⟨2⟩ : auto_fd).fd = -1 →
      (auto_fd.copyCtor ⟨2⟩ ⟨[0, 1, 2]⟩).1.fd = -1 ∧
      (auto_fd.copyAssign ⟨-1⟩ ⟨2⟩ ⟨[0, 1, 2]⟩).1.fd = -1) ∧
    (¬ (⟨[0, 1, 2]⟩ : OS).IsOpen (⟨2⟩ : auto_fd).fd →
      (auto_fd.copyCtor ⟨2⟩ ⟨[0, 1, 2]⟩).1.fd = -1 ∧
      (auto_fd.copyAssign ⟨-1⟩ ⟨2⟩ ⟨[0, 1, 2]⟩).1.fd = -1) ∧
    ((⟨[0, 1, 2]⟩ : OS).IsOpen (⟨2⟩ : auto_fd).fd →
      (auto_fd.copyCtor ⟨2⟩ ⟨[0, 1, 2]⟩).1.fd = (⟨[0, 1, 2]⟩ : OS).fresh ∧
      (auto_fd.copyCtor ⟨2⟩ ⟨[0, 1, 2]⟩).1.fd ∉ (⟨[0, 1, 2]⟩ : OS).fds ∧
      (auto_fd.copyCtor ⟨2⟩ ⟨[0, 1, 2]⟩).1.fd ≠ (⟨2⟩ : auto_fd).fd ∧
      (auto_fd.copyCtor ⟨2⟩ ⟨[0, 1, 2]⟩).2.IsOpen (auto_fd.copyCtor ⟨2⟩ ⟨[0, 1, 2]⟩).1.fd ∧
      (auto_fd.copyAssign ⟨-1⟩ ⟨2⟩ ⟨[0, 1, 2]⟩).1.fd = (⟨[0, 1, 2]⟩ : OS).fresh ∧
      (auto_fd.copyAssign ⟨-1⟩ ⟨2⟩ ⟨[0, 1, 2]⟩).2.IsOpen
        (auto_fd.copyAssign ⟨-1⟩ ⟨2⟩ ⟨[0, 1, 2]⟩).1.fd) :=
  fd_copy_dup_spec ⟨2⟩ ⟨-1⟩ ⟨[0, 1, 2]⟩ (Or.inl rfl)

/-- C7: immediately after auto_fd::set(i) with i ≥ 0 the handle is true and
get() returns i (set also returns i); a subsequent release() returns i,
empties the handle (get() = -1, bool false) and performs no system call, so
descriptor i is not closed by release (the table is unchanged). -/
theorem fd_set_release_spec (a : auto_fd) (os : OS) (i : Int) (h : 0 ≤ i) :
    (a.set i os).1 = i ∧
    (a.set i os).2.1.toBool = true ∧
    (a.set i os).2.1.get = i ∧
    ((a.set i os).2.1.release (a.set i os).2.2).1 = i ∧
    ((a.set i os).2.1.release (a.set i os).2.2).2.1.get = -1 ∧
    ((a.set i os).2.1.release (a.set i os).2.2).2.1.toBool = false ∧
    ((a.set i os).2.1.release (a.set i os).2.2).2.2 = (a.set i os).2.2 := by
  refine ⟨rfl, ?_, rfl, rfl, rfl, rfl, rfl⟩
  simp only [auto_fd.set, auto_fd.toBool, bne_iff_ne, ne_eq, decide_eq_true_eq]
  omega

/-- C7 witness: set(3) then release() on an initially empty handle. -/
theorem fd_set_release_spec_w :
    ((⟨-1⟩ : auto_fd).set 3 ⟨[]⟩).1 = 3 ∧
    ((⟨-1⟩ : auto_fd).set 3 ⟨[]⟩).2.1.toBool = true ∧
    ((⟨-1⟩ : auto_fd).set 3 ⟨[]⟩).2.1.get = 3 ∧
    (((⟨-1⟩ : auto_fd).set 3 ⟨[]⟩).2.1.release ((⟨-1⟩ : auto_fd).set 3 ⟨[]⟩).2.2).1 = 3 ∧
    (((⟨-1⟩ : auto_fd).set 3 ⟨[]⟩).2.1.release ((⟨-1⟩ : auto_fd).set 3 ⟨[]⟩).2.2).2.1.get = -1 ∧
    (((⟨-1⟩ : auto_fd).set 3 ⟨[]⟩).2.1.release ((⟨-1⟩ : auto_fd).set 3 ⟨[]⟩).2.2).2.1.toBool
      = false ∧
    (((⟨-1⟩ : auto_fd).set 3 ⟨[]⟩).2.1.release ((⟨-1⟩ : auto_fd).set 3 ⟨[]⟩).2.2).2.2
      = ((⟨-1⟩ : auto_fd).set 3 ⟨[]⟩).2.2 :=
  fd_set_release_spec ⟨-1⟩ ⟨[]⟩ 3 (by decide)

/-- After one auto_fd::close the handle slot is -1. -/
theorem auto_fd.close_fst (a : auto_fd) (os : OS) : (a.close os).1 = ⟨-1⟩ := by
  unfold auto_fd.close
  split
  · rfl
  · next h =>
    simp only [bne_iff_ne, ne_eq, not_not] at h
    cases a
    simp_all

/-- auto_fd::close on an empty handle is the identity. -/
theorem auto_fd.close_empty (os : OS) : auto_fd.close ⟨-1⟩ os = (⟨-1⟩, os) := rfl

/-- C8: close() is idempotent on auto_fd and on auto_pipe: one close empties
the handle, and a second close changes neither the handle nor the descriptor
table. -/
theorem close_idempotent (a : auto_fd) (p : auto_pipe) (os os₂ : OS) :
    (a.close os).1.toBool = false ∧
    auto_fd.close (a.close os).1 (a.close os).2 = a.close os ∧
    (p.close os₂).1.toBool = false ∧
    auto_pipe.close (p.close os₂).1 (p.close os₂).2 = p.close os₂ := by
  have hp1 : (p.close os₂).1 = ⟨⟨-1⟩, ⟨-1⟩⟩ := by
    unfold auto_pipe.close
    simp [auto_fd.close_fst]
  refine ⟨?_, ?_, ?_, ?_⟩
  · rw [auto_fd.close_fst]; rfl
  · rw [auto_fd.close_fst, auto_fd.close_empty]
    exact Prod.ext (auto_fd.close_fst a os).symm rfl
  · rw [hp1]; rfl
  · rw [hp1]
    exact Prod.ext hp1.symm rfl

/-- C1 counterexample: on an Empty handle (PID slot -1) join returns
normally with the handle still Empty; a normal return is not a raised
EINVAL (errno 22) error, so the claimed behaviour does not occur. -/
theorem join_empty_cex :
    worker_process.join (fun _ _ => 0) 1 ⟨-1⟩ = JoinOutcome.returned ⟨-1⟩ ∧
    JoinOutcome.returned ⟨-1⟩ ≠ JoinOutcome.raised 22 := by
  exact ⟨rfl, by decide⟩

/-- C1 (amended): join() on an Empty handle returns immediately after its
first is_running poll, raises no error, and leaves the handle Empty, for
every waitpid oracle and every positive poll budget. -/
theorem join_empty_returns (w : Nat → Int → Int) (n : Nat) :
    worker_process.join w (n + 1) ⟨-1⟩ = JoinOutcome.returned ⟨-1⟩ := by
  simp [worker_process.join, worker_process.is_running]

/-- C5: move construction and move assignment transfer the PID and release
(rather than stop) the source: both produce the pair (target with the
original PID, source reset to Empty) while issuing no system call; the
moved-from handle has get_id() = 0 and is_running() = false under every
waitpid oracle, and the moved-to handle's get_id() is the original PID. -/
theorem proc_move_transfers_pid (src dst : worker_process) (w : Int → Int)
    (h : 0 < src.child_pid) :
    worker_process.moveCtor src = (⟨src.child_pid⟩, ⟨-1⟩, []) ∧
    worker_process.moveAssign dst src = (⟨src.child_pid⟩, ⟨-1⟩, []) ∧
    worker_process.get_id ⟨-1⟩ = 0 ∧
    (worker_process.is_running ⟨-1⟩ w).1 = false ∧
    worker_process.get_id ⟨src.child_pid⟩ = src.child_pid := by
  refine ⟨rfl, rfl, by decide, rfl, ?_⟩
  simp [worker_process.get_id, h]

/-- C5 witness: moving a handle that owns PID 5 into a handle owning PID 9. -/
theorem proc_move_transfers_pid_w :
    worker_process.moveCtor ⟨5⟩ = (⟨5⟩, ⟨-1⟩, []) ∧
    worker_process.moveAssign ⟨9⟩ ⟨5⟩ = (⟨5⟩, ⟨-1⟩, []) ∧
    worker_process.get_id ⟨-1⟩ = 0 ∧
    (worker_process.is_running ⟨-1⟩ (fun _ => 0)).1 = false ∧
    worker_process.get_id ⟨5⟩ = 5 :=
  proc_move_transfers_pid ⟨5⟩ ⟨9⟩ (fun _ => 0) (by decide)

/-- C9: on a non-empty handle, when the non-blocking waitpid poll returns
anything other than the owned PID (0 for still running, or -1 when the child
was already reaped elsewhere), is_running() returns true and leaves the PID
slot unchanged: the handle never becomes Empty on a failed poll. -/
theorem is_running_failed_poll (s : worker_process) (w : Int → Int)
    (h1 : s.child_pid ≠ -1) (h2 : w s.child_pid ≠ s.child_pid) :
    worker_process.is_running s w = (true, s) := by
  simp [worker_process.is_running, h1, h2]

/-- C9 witness: a handle owning PID 7 whose poll fails with -1 (ECHILD). -/
theorem is_running_failed_poll_w :
    worker_process.is_running ⟨7⟩ (fun _ => -1) = (true, ⟨7⟩) :=
  is_running_failed_poll ⟨7⟩ (fun _ => -1) (by decide) (by decide)

/-- C10: move-assigning into a handle that owns a running child only rewrites
the two PID slots: the target takes the source's PID, the source becomes
Empty, the operation issues no system call (no signal, no wait), and the
kernel state is unchanged, so the previously owned child is still running
afterwards. -/
theorem moveAssign_frame (dst src : worker_process) (k : KernelState)
    (_h1 : 0 < dst.child_pid) (h2 : dst.child_pid ∈ k.running) :
    worker_process.moveAssign dst src = (⟨src.child_pid⟩, ⟨-1⟩, []) ∧
    KernelState.applyTrace k (worker_process.moveAssign dst src).2.2 = k ∧
    dst.child_pid ∈ (KernelState.applyTrace k (worker_process.moveAssign dst src).2.2).running :=
  ⟨rfl, rfl, h2⟩

/-- C10 witness: a target owning running child 3, a source owning child 7. -/
theorem moveAssign_frame_w :
    worker_process.moveAssign ⟨3⟩ ⟨7⟩ = (⟨7⟩, ⟨-1⟩, []) ∧
    KernelState.applyTrace ⟨[3]⟩ (worker_process.moveAssign ⟨3⟩ ⟨7⟩).2.2 = ⟨[3]⟩ ∧
    (3 : Int) ∈ (KernelState.applyTrace ⟨[3]⟩ (worker_process.moveAssign ⟨3⟩ ⟨7⟩).2.2).running :=
  moveAssign_frame ⟨3⟩ ⟨7⟩ ⟨[3]⟩ (by decide) (by decide)

/-- A successful waitpid(0, WNOHANG) poll reaps a terminated member of the
group: the returned PID belongs to some terminated child of the group, the
table shrinks by one, the non-(group zombie) children are untouched, and the
remaining children all come from the original table. -/
theorem selectZombie_some (pg : Int) (cs : List Child) :
    ∀ p cs', selectZombie pg cs = some (p, cs') →
    (∃ c, c ∈ cs ∧ c.pid = p ∧ groupZombie pg c = true) ∧
    cs'.length + 1 = cs.length ∧
    cs'.filter (fun c => !groupZombie pg c) = cs.filter (fun c => !groupZombie pg c) ∧
    ∀ c, c ∈ cs' → c ∈ cs := by
  induction cs with
  | nil => intro p cs' h; simp [selectZombie] at h
  | cons c t ih =>
    intro p cs' h
    by_cases hz : groupZombie pg c
    · simp only [selectZombie, if_pos hz, Option.some.injEq, Prod.mk.injEq] at h
      obtain ⟨hp, ht⟩ := h
      subst hp; subst ht
      exact ⟨⟨c, List.mem_cons_self c t, rfl, hz⟩, by simp,
        by simp [List.filter_cons, hz], fun x hx => List.mem_cons_of_mem c hx⟩
    · simp only [selectZombie, if_neg hz] at h
      cases hsel : selectZombie pg t with
      | none => rw [hsel] at h; simp at h
      | some r =>
        rw [hsel] at h
        simp only [Option.some.injEq, Prod.mk.injEq] at h
        obtain ⟨hp, hcs⟩ := h
        obtain ⟨⟨c0, hc0, hc0p, hc0z⟩, hlen, hfil, hsub⟩ := ih r.1 r.2 hsel
        subst hp; subst hcs
        refine ⟨⟨c0, List.mem_cons_of_mem c hc0, hc0p, hc0z⟩, ?_, ?_, ?_⟩
        · simp only [List.length_cons]; omega
        · simp [List.filter_cons, hz, hfil]
        · intro x hx
          rcases List.mem_cons.mp hx with h1 | h1
          · exact List.mem_cons.mpr (Or.inl h1)
          · exact List.mem_cons_of_mem c (hsub x h1)

/-- A failed poll means the group holds no terminated child. -/
theorem selectZombie_none (pg : Int) (cs : List Child) :
    selectZombie pg cs = none → ∀ c, c ∈ cs → groupZombie pg c = false := by
  induction cs with
  | nil => intro _ c hc; cases hc
  | cons c t ih =>
    intro h x hx
    by_cases hz : groupZombie pg c
    · simp only [selectZombie, if_pos hz] at h
      cases h
    · simp only [selectZombie, if_neg hz] at h
      cases hsel : selectZombie pg t with
      | none =>
        rcases List.mem_cons.mp hx with h1 | h1
        · subst h1; simpa using hz
        · exact ih hsel x h1
      | some r => rw [hsel] at h; simp at h

/-- The reap loop with a poll budget of at least the table size removes
exactly the terminated children of the caller's group. -/
theorem reapAllAux_filter (pg : Int) (n : Nat) (cs : List Child)
    (hlen : cs.length ≤ n) (hpos : ∀ c, c ∈ cs → 0 < c.pid) :
    reapAllAux pg n cs = cs.filter (fun c => !groupZombie pg c) := by
  induction n generalizing cs with
  | zero =>
    have h0 : cs = [] := List.length_eq_zero.mp (Nat.le_zero.mp hlen)
    subst h0
    rfl
  | succ n ih =>
    cases hsel : selectZombie pg cs with
    | none =>
      have hall := selectZombie_none pg cs hsel
      have hw : ¬ 0 < (waitpidGroupNohang pg cs).1 := by
        unfold waitpidGroupNohang
        rw [hsel]
        dsimp only
        split <;> omega
      have hstep : reapAllAux pg (n + 1) cs = cs := by
        simp only [reapAllAux]
        rw [if_neg hw]
      rw [hstep]
      exact (List.filter_eq_self.mpr (fun c hc => by simp [hall c hc])).symm
    | some r =>
      obtain ⟨⟨c0, hc0, hc0p, hc0z⟩, hlen', hfil, hsub⟩ := selectZombie_some pg cs r.1 r.2 hsel
      have hrpos : 0 < r.1 := hc0p ▸ hpos c0 hc0
      have hw : waitpidGroupNohang pg cs = r := by
        unfold waitpidGroupNohang
        rw [hsel]
      have hstep : reapAllAux pg (n + 1) cs = reapAllAux pg n r.2 := by
        simp only [reapAllAux, hw]
        rw [if_pos hrpos]
      rw [hstep, ih r.2 (by omega) (fun c hc => hpos c (hsub c hc)), hfil]

/-- C2 counterexample: with the caller in process group 1 and a single
terminated child that lives in process group 2, reap_all's waitpid(0) loop
(which selects only children of the caller's process group) reaps nothing:
a terminated child still exists afterwards, so the loop does not run "until
no further terminated child exists" for children outside the group. -/
theorem reap_all_other_group_cex :
    worker_process.reap_all 1 [⟨5, 2, true⟩] = [⟨5, 2, true⟩] ∧
    (⟨5, 2, true⟩ : Child).zombie = true :=
  ⟨rfl, rfl⟩

/-- C2 (amended): reap_all repeatedly performs a non-blocking (WNOHANG)
wait on any child of the caller's process group — not just children owned by
worker_process handles — until no terminated child of that group remains,
and the loop terminates within one poll per child, so it never blocks;
children outside the caller's process group are left untouched. -/
theorem reap_all_reaps_group (pg : Int) (cs : List Child)
    (hpos : ∀ c, c ∈ cs → 0 < c.pid) :
    worker_process.reap_all pg cs = cs.filter (fun c => !groupZombie pg c) ∧
    ∀ c, c ∈ worker_process.reap_all pg cs → c.pgid = pg → c.zombie = false := by
  have h := reapAllAux_filter pg cs.length cs le_rfl hpos
  refine ⟨h, fun c hc hg => ?_⟩
  rw [worker_process.reap_all, h] at hc
  have h2 := (List.mem_filter.mp hc).2
  simpa [groupZombie, hg] using h2

/-- C2 witness: a caller in group 1 with a terminated child in its group
(reaped) and a terminated child in group 2 (kept). -/
theorem reap_all_reaps_group_w :
    worker_process.reap_all 1 [⟨3, 1, true⟩, ⟨4, 2, true⟩]
      = List.filter (fun c => !groupZombie 1 c) [⟨3, 1, true⟩, ⟨4, 2, true⟩] :=
  (reap_all_reaps_group 1 [⟨3, 1, true⟩, ⟨4, 2, true⟩] (by decide)).1

/-- C6: load_modsymbol opens the library with immediate resolution
(RTLD_NOW).  When dlopen fails it raises an error whose message names the
path and leaves the loaded-library set unchanged; when dlsym fails it first
closes the freshly opened library (the loaded set is restored to its initial
value) and raises an error whose message names both the symbol and the path;
on success it returns a handle owning the library handle and the resolved
symbol pointer, with the library left loaded. -/
theorem load_modsymbol_spec (env : DlEnv) (sym path : String) (st : LibState) :
    (env.dlopenRes DlMode.now path = none →
      load_modsymbol env sym path st = (Except.error ("dlopen failed on " ++ path), st) ∧
      ∃ a, "dlopen failed on " ++ path = a ++ path) ∧
    (∀ h, env.dlopenRes DlMode.now path = some h → env.dlsymRes h sym = none →
      load_modsymbol env sym path st =
        (Except.error ("dlsym failed to find " ++ sym ++ " in " ++ path), st) ∧
      ∃ a b, "dlsym failed to find " ++ sym ++ " in " ++ path = a ++ sym ++ b ++ path) ∧
    (∀ h p, env.dlopenRes DlMode.now path = some h → env.dlsymRes h sym = some p →
      load_modsymbol env sym path st = (Except.ok ⟨some h, some p⟩, ⟨h :: st.openLibs⟩)) := by
  refine ⟨fun h0 => ⟨?_, ⟨"dlopen failed on ", rfl⟩⟩,
    fun h h0 h1 => ⟨?_, ⟨"dlsym failed to find ", " in ", rfl⟩⟩,
    fun h p h0 h1 => ?_⟩
  · unfold load_modsymbol
    rw [h0]
  · simp only [load_modsymbol, h0, h1, List.erase_cons_head]
  · simp only [load_modsymbol, h0, h1]

/-- C6 witness: an environment whose dlopen yields handle 1 and whose dlsym
yields symbol address 2, applied on an empty loaded-library set. -/
theorem load_modsymbol_spec_w :
    load_modsymbol ⟨fun _ _ => some 1, fun _ _ => some 2⟩ "f" "libx.so" ⟨[]⟩
      = (Except.ok ⟨some 1, some 2⟩, ⟨[1]⟩) :=
  (load_modsymbol_spec ⟨fun _ _ => some 1, fun _ _ => some 2⟩ "f" "libx.so" ⟨[]⟩).2.2
    1 2 rfl rfl

/-- C3: pipe copy assignment (the defaulted memberwise assignment) duplicates
both ends through the dup-based auto_fd copy assignment, and it agrees with
copy construction: the copy constructor is exactly the defaulted assignment
into a default (empty-ends) target, and for any well-formed non-aliasing
target the assigned copy's two descriptors are fresh dups — new descriptors
distinct from each other, from both of the source's ends and from everything
previously open, both open afterwards — while the source's two ends remain
open (the source is unchanged). -/
theorem pipe_copy_assign_dup (p dst : auto_pipe) (os : OS)
    (hr : os.IsOpen p.read_fd.fd) (hw : os.IsOpen p.write_fd.fd)
    (hd1 : dst.read_fd.fd = -1 ∨ os.IsOpen dst.read_fd.fd)
    (hd2 : dst.write_fd.fd = -1 ∨ os.IsOpen dst.write_fd.fd)
    (hne1 : p.read_fd.fd ≠ dst.read_fd.fd) (hne2 : p.write_fd.fd ≠ dst.read_fd.fd)
    (hne3 : p.read_fd.fd ≠ dst.write_fd.fd) (hne4 : p.write_fd.fd ≠ dst.write_fd.fd) :
    auto_pipe.copyCtor p os = auto_pipe.copyAssignDefaulted ⟨⟨-1⟩, ⟨-1⟩⟩ p os ∧
    (auto_pipe.copyAssignDefaulted dst p os).1.read_fd.fd ∉ os.fds ∧
    (auto_pipe.copyAssignDefaulted dst p os).1.write_fd.fd ∉ os.fds ∧
    (auto_pipe.copyAssignDefaulted dst p os).1.read_fd.fd ≠ p.read_fd.fd ∧
    (auto_pipe.copyAssignDefaulted dst p os).1.read_fd.fd ≠ p.write_fd.fd ∧
    (auto_pipe.copyAssignDefaulted dst p os).1.write_fd.fd ≠ p.read_fd.fd ∧
    (auto_pipe.copyAssignDefaulted dst p os).1.write_fd.fd ≠ p.write_fd.fd ∧
    (auto_pipe.copyAssignDefaulted dst p os).1.read_fd.fd
      ≠ (auto_pipe.copyAssignDefaulted dst p os).1.write_fd.fd ∧
    (auto_pipe.copyAssignDefaulted dst p os).2.IsOpen
      (auto_pipe.copyAssignDefaulted dst p os).1.read_fd.fd ∧
    (auto_pipe.copyAssignDefaulted dst p os).2.IsOpen
      (auto_pipe.copyAssignDefaulted dst p os).1.write_fd.fd ∧
    (auto_pipe.copyAssignDefaulted dst p os).2.IsOpen p.read_fd.fd ∧
    (auto_pipe.copyAssignDefaulted dst p os).2.IsOpen p.write_fd.fd := by
  have hfp : 0 < os.fresh := OS.fresh_pos os
  have hdlt1 : dst.read_fd.fd < os.fresh := by
    rcases hd1 with h | h
    · omega
    · exact OS.lt_fresh_of_mem os _ h.2
  have hdlt2a : dst.write_fd.fd < os.fresh := by
    rcases hd2 with h | h
    · omega
    · exact OS.lt_fresh_of_mem os _ h.2
  obtain ⟨s11, s12, pres1, s14⟩ := copyAssign_step dst.read_fd p.read_fd os hr hdlt1
  have hs2 : (auto_fd.copyAssign dst.read_fd p.read_fd os).2.IsOpen p.write_fd.fd :=
    pres1 _ hw hne2
  have hdlt2 : dst.write_fd.fd < (auto_fd.copyAssign dst.read_fd p.read_fd os).2.fresh := by
    omega
  obtain ⟨s21, s22, pres2, s24⟩ :=
    copyAssign_step dst.write_fd p.write_fd
      (auto_fd.copyAssign dst.read_fd p.read_fd os).2 hs2 hdlt2
  have e1 : (auto_pipe.copyAssignDefaulted dst p os).1.read_fd
      = (auto_fd.copyAssign dst.read_fd p.read_fd os).1 := rfl
  have e2 : (auto_pipe.copyAssignDefaulted dst p os).1.write_fd
      = (auto_fd.copyAssign dst.write_fd p.write_fd
          (auto_fd.copyAssign dst.read_fd p.read_fd os).2).1 := rfl
  have e3 : (auto_pipe.copyAssignDefaulted dst p os).2
      = (auto_fd.copyAssign dst.write_fd p.write_fd
          (auto_fd.copyAssign dst.read_fd p.read_fd os).2).2 := rfl
  have hpr : p.read_fd.fd < os.fresh := OS.lt_fresh_of_mem os _ hr.2
  have hpw : p.write_fd.fd < os.fresh := OS.lt_fresh_of_mem os _ hw.2
  refine ⟨rfl, ?_, ?_, ?_, ?_, ?_, ?_, ?_, ?_, ?_, ?_, ?_⟩
  · rw [e1, s11]; exact OS.fresh_not_mem os
  · rw [e2, s21]
    intro hmem
    have := OS.lt_fresh_of_mem os _ hmem
    omega
  · rw [e1, s11]; omega
  · rw [e1, s11]; omega
  · rw [e2, s21]; omega
  · rw [e2, s21]; omega
  · rw [e1, e2, s11, s21]; omega
  · rw [e1, e3, s11]
    exact pres2 _ s12 (by omega)
  · rw [e2, e3, s21]
    exact s22
  · rw [e3]
    exact pres2 _ (pres1 _ hr hne1) hne3
  · rw [e3]
    exact pres2 _ (pres1 _ hw hne2) hne4

/-- C3 witness: source pipe owning descriptors 0 (read) and 1 (write),
target pipe owning 2 and 3, on the table [0, 1, 2, 3]. -/
theorem pipe_copy_assign_dup_w :
    auto_pipe.copyCtor ⟨⟨0⟩, ⟨1⟩⟩ ⟨[0, 1, 2, 3]⟩
      = auto_pipe.copyAssignDefaulted ⟨⟨-1⟩, ⟨-1⟩⟩ ⟨⟨0⟩, ⟨1⟩⟩ ⟨[0, 1, 2, 3]⟩ ∧
    (auto_pipe.copyAssignDefaulted ⟨⟨2⟩, ⟨3⟩⟩ ⟨⟨0⟩, ⟨1⟩⟩ ⟨[0, 1, 2, 3]⟩).1.read_fd.fd
      ∉ (⟨[0, 1, 2, 3]⟩ : OS).fds ∧
    (auto_pipe.copyAssignDefaulted ⟨⟨2⟩, ⟨3⟩⟩ ⟨⟨0⟩, ⟨1⟩⟩ ⟨[0, 1, 2, 3]⟩).1.write_fd.fd
      ∉ (⟨[0, 1, 2, 3]⟩ : OS).fds ∧
    (auto_pipe.copyAssignDefaulted ⟨⟨2⟩, ⟨3⟩⟩ ⟨⟨0⟩, ⟨1⟩⟩ ⟨[0, 1, 2, 3]⟩).1.read_fd.fd
      ≠ (⟨⟨0⟩, ⟨1⟩⟩ : auto_pipe).read_fd.fd ∧
    (auto_pipe.copyAssignDefaulted ⟨⟨2⟩, ⟨3⟩⟩ ⟨⟨0⟩, ⟨1⟩⟩ ⟨[0, 1, 2, 3]⟩).1.read_fd.fd
      ≠ (⟨⟨0⟩, ⟨1⟩⟩ : auto_pipe).write_fd.fd ∧
    (auto_pipe.copyAssignDefaulted ⟨⟨2⟩, ⟨3⟩⟩ ⟨⟨0⟩, ⟨1⟩⟩ ⟨[0, 1, 2, 3]⟩).1.write_fd.fd
      ≠ (⟨⟨0⟩, ⟨1⟩⟩ : auto_pipe).read_fd.fd ∧
    (auto_pipe.copyAssignDefaulted ⟨⟨2⟩, ⟨3⟩⟩ ⟨⟨0⟩, ⟨1⟩⟩ ⟨[0, 1, 2, 3]⟩).1.write_fd.fd
      ≠ (⟨⟨0⟩, ⟨1⟩⟩ : auto_pipe).write_fd.fd ∧
    (auto_pipe.copyAssignDefaulted ⟨⟨2⟩, ⟨3⟩⟩ ⟨⟨0⟩, ⟨1⟩⟩ ⟨[0, 1, 2, 3]⟩).1.read_fd.fd
      ≠ (auto_pipe.copyAssignDefaulted ⟨⟨2⟩, ⟨3⟩⟩ ⟨⟨0⟩, ⟨1⟩⟩ ⟨[0, 1, 2, 3]⟩).1.write_fd.fd ∧
    (auto_pipe.copyAssignDefaulted ⟨⟨2⟩, ⟨3⟩⟩ ⟨⟨0⟩, ⟨1⟩⟩ ⟨[0, 1, 2, 3]⟩).2.IsOpen
      (auto_pipe.copyAssignDefaulted ⟨⟨2⟩, ⟨3⟩⟩ ⟨⟨0⟩, ⟨1⟩⟩ ⟨[0, 1, 2, 3]⟩).1.read_fd.fd ∧
    (auto_pipe.copyAssignDefaulted ⟨⟨2⟩, ⟨3⟩⟩ ⟨⟨0⟩, ⟨1⟩⟩ ⟨[0, 1, 2, 3]⟩).2.IsOpen
      (auto_pipe.copyAssignDefaulted ⟨⟨2⟩, ⟨3⟩⟩ ⟨⟨0⟩, ⟨1⟩⟩ ⟨[0, 1, 2, 3]⟩).1.write_fd.fd ∧
    (auto_pipe.copyAssignDefaulted ⟨⟨2⟩, ⟨3⟩⟩ ⟨⟨0⟩, ⟨1⟩⟩ ⟨[0, 1, 2, 3]⟩).2.IsOpen
      (⟨⟨0⟩, ⟨1⟩⟩ : auto_pipe).read_fd.fd ∧
    (auto_pipe.copyAssignDefaulted ⟨⟨2⟩, ⟨3⟩⟩ ⟨⟨0⟩, ⟨1⟩⟩ ⟨[0, 1, 2, 3]⟩).2.IsOpen
      (⟨⟨0⟩, ⟨1⟩⟩ : auto_pipe).write_fd.fd :=
  pipe_copy_assign_dup ⟨⟨0⟩, ⟨1⟩⟩ ⟨⟨2⟩, ⟨3⟩⟩ ⟨[0, 1, 2, 3]⟩ (by decide) (by decide)
    (by decide) (by decide) (by decide) (by decide) (by decide) (by decide)
